import Mathlib

/-!
Shallow embedding of the Rate-Limited Price Resolution Pipeline of
`src/main.py` (Dota2 image -> Steam price scraper).

Python strings are modelled as `List Char` (`PyStr`).  The source file on
disk is double-encoded (UTF-8 read as MacRoman and re-encoded), so its
string literals contain mojibake sequences; the embedding reproduces those
literals character-for-character as they stand in the source, e.g. the
peso-sign literal in `parse_price_to_float` is the three characters
U+201A U+00C7 U+00B1, not U+20B1.

Network effects are modelled by an explicit response stream
(`Nat -> SteamResp`) consumed by `steam_price_for_item`; `time.sleep`
calls are modelled as events recorded in the result (a list of durations
in seconds, as exact rationals).  Money values are modelled as `Rat`
(the Python code uses binary floats; every claim under study is about the
decimal values and the aggregation structure, for which the exact-rational
model is the intended reading).
-/

abbrev PyStr := List Char

/-- Python whitespace test, restricted to the ASCII fragment
(`str.strip` and the regex class `\s` agree on these characters). -/
def pyIsSpace (c : Char) : Bool :=
  c = ' ' || c = '\t' || c = '\n' || c = '\x0d' || c = '\x0b' || c = '\x0c'

/-- Python decimal-digit test, restricted to ASCII `0`-`9`
(the regex class `\d`). -/
def pyIsDigit (c : Char) : Bool :=
  '0' ≤ c && c ≤ '9'

/-- Model of `str.strip()`: drop leading and trailing whitespace. -/
def pyStrip (s : PyStr) : PyStr :=
  ((s.dropWhile pyIsSpace).reverse.dropWhile pyIsSpace).reverse

/-- Scanner for `str.replace`: structural recursion on a fuel argument so
that the definition reduces in the kernel; a fuel of at least the string
length never runs out, since each step consumes at least one character. -/
def pyReplaceAux (pat rep : PyStr) : Nat → PyStr → PyStr
  | 0, s => s
  | _ + 1, [] => []
  | fuel + 1, c :: rest =>
    if pat ≠ [] ∧ pat.isPrefixOf (c :: rest) then
      rep ++ pyReplaceAux pat rep fuel (rest.drop (pat.length - 1))
    else
      c :: pyReplaceAux pat rep fuel rest

/-- Model of `str.replace(pat, rep)`: replace every non-overlapping
occurrence of `pat`, scanning left to right.  All call sites in the source
use a non-empty `pat`. -/
def pyReplace (pat rep s : PyStr) : PyStr :=
  pyReplaceAux pat rep s.length s

/-- Model of `str.count(c)` for a single character. -/
def pyCount (s : PyStr) (c : Char) : Nat :=
  s.count c

/-- Truthiness of `None`-or-string values: `None` and `""` are falsy. -/
def truthyStr : Option PyStr → Bool
  | none => false
  | some s => s ≠ []

/-- Python `a or b` on `None`-or-string values. -/
def pyOr (a b : Option PyStr) : Option PyStr :=
  if truthyStr a then a else b

/-- The first match of the regex `\d+(?:\.\d+)?` (`re.search`): scan to the
leftmost digit, take the maximal digit run, then optionally a dot followed
by a maximal digit run. -/
def firstNumeral : PyStr → Option PyStr
  | [] => none
  | c :: rest =>
    if pyIsDigit c then
      let ds := (c :: rest).takeWhile pyIsDigit
      let after := (c :: rest).dropWhile pyIsDigit
      match after with
      | '.' :: r2 =>
        if (r2.takeWhile pyIsDigit) ≠ [] then
          some (ds ++ '.' :: r2.takeWhile pyIsDigit)
        else
          some ds
      | _ => some ds
    else
      firstNumeral rest

/-- Numeric value of a digit character. -/
def digitVal (c : Char) : Nat := c.toNat - '0'.toNat

/-- Value of a digit string read in base 10. -/
def digitsToNat (s : PyStr) : Nat :=
  s.foldl (fun acc c => 10 * acc + digitVal c) 0

/-- Value of a numeral of the shape `digits` or `digits.digits`, as an
exact rational (`float` in the source; the numerals under study are exact
decimals). -/
def numeralToRat (s : PyStr) : ℚ :=
  let ip := s.takeWhile (fun c => ¬ c = '.')
  let rest := s.dropWhile (fun c => ¬ c = '.')
  match rest with
  | '.' :: fp => mkRat (digitsToNat ip * 10 ^ fp.length + digitsToNat fp) (10 ^ fp.length)
  | _ => mkRat (digitsToNat ip) 1

/-- The mojibake peso-sign literal of the source (`"‚Ç±"`,
the double-encoded form of U+20B1). -/
def pesoLit : PyStr := ['‚', 'Ç', '±']

/-- The mojibake hryvnia-sign literal of the source (`"‚Ç¥"`,
the double-encoded form of U+20B4). -/
def hryvniaLit : PyStr := ['‚', 'Ç', '¥']

/-- The currency-marker stripping chain of `parse_price_to_float`
(lines 83-87 of `src/main.py`): strip, the seven `replace` calls in source
order, strip again. -/
def stripCurrencySymbols (s : PyStr) : PyStr :=
  let s1 := pyStrip s
  let s2 := pyReplace pesoLit [] s1
  let s3 := pyReplace "PHP".toList [] s2
  let s4 := pyReplace "$".toList [] s3
  let s5 := pyReplace "US$".toList [] s4
  let s6 := pyReplace "Mex$".toList [] s5
  let s7 := pyReplace "USD".toList [] s6
  let s8 := pyReplace hryvniaLit [] s7
  pyStrip s8

/-- The separator heuristic of `parse_price_to_float` (lines 89-94):
if both `,` and `.` occur, remove every `,`; else if only `,` occurs,
substitute it by `.`. -/
def normalizeSeparators (s : PyStr) : PyStr :=
  if 0 < pyCount s ',' ∧ 0 < pyCount s '.' then
    pyReplace [','] [] s
  else if 0 < pyCount s ',' ∧ pyCount s '.' = 0 then
    pyReplace [','] ['.'] s
  else
    s

/-- Embedding of `parse_price_to_float` (lines 73-102): `None` on a falsy input,
otherwise strip currency markers, apply the separator heuristic, extract
the first numeral, and read it as a number.  (The numeral always satisfies
`float`, so the final `try` never yields `None` for a matched numeral.) -/
def parse_price_to_float (price_text : PyStr) : Option ℚ :=
  if price_text = [] then none
  else
    let s := normalizeSeparators (stripCurrencySymbols price_text)
    (firstNumeral s).map numeralToRat

/-! ## Settings block (lines 35-45 of `src/main.py`) -/

/-- Seconds between successful Steam queries (`SUCCESS_DELAY = 2.5`). -/
def SUCCESS_DELAY : ℚ := mkRat 5 2

/-- Delay when an error occurs / before a retry (`ERROR_DELAY = 6.0`). -/
def ERROR_DELAY : ℚ := 6

/-- Retries for the Steam API call (`MAX_RETRIES = 3`). -/
def MAX_RETRIES : Nat := 3

/-- Every N items, do a longer cooldown (`COOLDOWN_EVERY = 20`). -/
def COOLDOWN_EVERY : Nat := 20

/-- Seconds for the longer cooldown (`COOLDOWN_TIME = 12`). -/
def COOLDOWN_TIME : ℚ := 12

/-! ## Name normalization (`clean_item_name`, lines 65-71, and the OCR
token filter of `ocr_extract_names_from_image`, lines 169-180)

The source file on disk is double-encoded, so the four quote-replacement
target literals of `clean_item_name` are the mojibake sequences below, not
the typographic quotes U+2019 / U+2018 / U+201C / U+201D themselves.
Unicode NFKC normalization (`unicodedata.normalize("NFKC", ...)`) is far
too large to embed, so `clean_item_name` is parameterized by the `nfkc`
function; every theorem below instantiates or constrains it only on
strings where the behaviour of real NFKC is beyond doubt (it is the
identity on ASCII characters and on the typographic quotes, none of which
carry a compatibility decomposition). -/

/-- ASCII apostrophe (written by codepoint). -/
def apos : Char := Char.ofNat 39

/-- Mojibake literal standing where the source meant U+2019. -/
def rsqLit : PyStr := ['‚', 'Ä', 'ô']

/-- Mojibake literal standing where the source meant U+2018. -/
def lsqLit : PyStr := ['‚', 'Ä', 'ò']

/-- Mojibake literal standing where the source meant U+201C. -/
def ldqLit : PyStr := ['‚', 'Ä', 'ú']

/-- Mojibake literal standing where the source meant U+201D. -/
def rdqLit : PyStr := ['‚', 'Ä', 'ù']

/-- The quote-replacement chain of `clean_item_name` (line 69): the four
`replace` calls in source order. -/
def quoteReplace (name : PyStr) : PyStr :=
  let n1 := pyReplace rsqLit [apos] name
  let n2 := pyReplace lsqLit [apos] n1
  let n3 := pyReplace ldqLit ['"'] n2
  pyReplace rdqLit ['"'] n3

/-- Embedding of `clean_item_name` (lines 65-71): falsy input returned
as-is, otherwise quote replacement, NFKC normalization, strip. -/
def clean_item_name (nfkc : PyStr → PyStr) (name : PyStr) : PyStr :=
  if name = [] then name
  else pyStrip (nfkc (quoteReplace name))

/-- The regex `[\d,\.]+` with `re.fullmatch`: non-empty, and every
character a digit, comma or period. -/
def isNumericNoise (t : PyStr) : Bool :=
  t ≠ [] && t.all (fun c => pyIsDigit c || c = ',' || c = '.')

/-- The per-token filter of `ocr_extract_names_from_image` (lines
169-179): strip, drop empty tokens, drop tokens shorter than 2
characters, drop purely numeric/comma/period tokens; kept tokens are the
stripped strings, in order. -/
def ocrFilterTokens : List PyStr → List PyStr
  | [] => []
  | t :: rest =>
    let t' := pyStrip t
    if t' = [] then ocrFilterTokens rest
    else if t'.length < 2 then ocrFilterTokens rest
    else if isNumericNoise t' then ocrFilterTokens rest
    else t' :: ocrFilterTokens rest

/-! ## Steam price lookup (`steam_price_for_item`, lines 104-142) -/

/-- One attempt's outcome at the external price source, as the code can
distinguish them: a transport-level failure (exception, timeout or
non-200 status, or a malformed payload), or an HTTP 200 response with a
parsed JSON body carrying `success` and the two optional price fields. -/
inductive SteamResp
  | transportFail
  | ok (success : Bool) (lowest_price median_price : Option PyStr)

/-- What one call of `steam_price_for_item` produces in the embedding:
the returned pair, plus the `time.sleep` durations executed inside the
call and the number of requests issued. -/
structure FetchResult where
  priceStr : Option PyStr
  parsed : Option ℚ
  sleeps : List ℚ
  requests : Nat
deriving DecidableEq

/-- The retry loop of `steam_price_for_item` (lines 121-142), structurally
recursive on the remaining retry budget.  Each iteration issues one
request; a 200 response with `success` and a truthy price string returns
it (with its parse) at once, a 200 `success` response without a truthy
price string returns `(None, None)` at once, and every other outcome
sleeps `ERROR_DELAY` and retries.  An exhausted budget returns
`(None, None)`. -/
def steamLoop (responses : Nat → SteamResp) : Nat → Nat → FetchResult
  | _, 0 => ⟨none, none, [], 0⟩
  | attempt, fuel + 1 =>
    match responses attempt with
    | SteamResp.ok true lowest median =>
      let ps := pyOr lowest median
      if truthyStr ps then
        ⟨ps, parse_price_to_float (ps.getD []), [], 1⟩
      else
        ⟨none, none, [], 1⟩
    | _ =>
      let r := steamLoop responses (attempt + 1) fuel
      ⟨r.priceStr, r.parsed, ERROR_DELAY :: r.sleeps, r.requests + 1⟩

/-- Embedding of `steam_price_for_item` (lines 104-142): run up to
`retries` attempts against the response stream, attempts numbered from 1. -/
def steam_price_for_item (responses : Nat → SteamResp) (retries : Nat) : FetchResult :=
  steamLoop responses 1 retries

/-! ## The per-item resolution loop of `handle_image` (lines 244-278) -/

/-- The fixed failed-row marker of line 272.  Its first three characters
are the mojibake form of the cross-mark emoji U+274C as it stands in the
double-encoded source. -/
def errorMarker : PyStr := '‚' :: 'ù' :: 'å' :: " Not found / Error".toList

/-- The alternate-name cleanup of line 263:
`re.sub(r"^[xX]\s*\d+\s*", "", name)` — strip one leading quantity marker
(`x` or `X`, optional whitespace, digits, optional whitespace); the match
is anchored at the start and removed only when the digit run is
non-empty. -/
def stripQtyMarker (s : PyStr) : PyStr :=
  match s with
  | [] => []
  | c :: rest =>
    if c = 'x' ∨ c = 'X' then
      let afterWs := rest.dropWhile pyIsSpace
      if (afterWs.takeWhile pyIsDigit) = [] then s
      else (afterWs.dropWhile pyIsDigit).dropWhile pyIsSpace
    else s

/-- The response streams one item's resolution may consume: one stream for
the primary `steam_price_for_item(name, retries=MAX_RETRIES)` call and one
for the fallback `steam_price_for_item(alt_name, retries=1)` call. -/
structure ItemEnv where
  primary : Nat → SteamResp
  fallback : Nat → SteamResp

/-- Everything one iteration of the `for idx, name in enumerate(...)` loop
(lines 250-278) does, recorded explicitly: the appended row, whether the
success or the fail counter was incremented, the truthy price string the
iteration obtained (if any), the amount added to `total_value`, the
fallback query issued (its query name and its request count, if the
fallback stage ran), the sleeps inside the steam calls, and the sleeps
executed after the row is appended and before the next iteration. -/
structure ItemOutcome where
  row : PyStr × PyStr
  succeeded : Bool
  priceStr : Option PyStr
  contrib : ℚ
  fallbackQuery : Option (PyStr × Nat)
  fetchSleeps : List ℚ
  postSleeps : List ℚ

/-- The cooldown of line 277: after every `COOLDOWN_EVERY`-th item
(success or failure alike), one extra sleep of `COOLDOWN_TIME`. -/
def cooldownSleeps (idx : Nat) : List ℚ :=
  if idx % COOLDOWN_EVERY = 0 then [COOLDOWN_TIME] else []

/-- One iteration of the loop of lines 250-278 for the 1-based index `idx`
and the cleaned `name`: primary query with `MAX_RETRIES`; on a truthy
price string append `(name, price_str)`, add the parsed value when it is
not `None`, count a success and sleep `SUCCESS_DELAY`; otherwise run the
fallback query with the quantity marker stripped and `retries=1`, with
the same success handling except that the row still records `name`; if
both stages fail, append the fixed error marker, count a failure and
sleep `ERROR_DELAY`.  After either path, the cooldown sleep of line 277. -/
def processItem (env : ItemEnv) (idx : Nat) (name : PyStr) : ItemOutcome :=
  let cooldown := cooldownSleeps idx
  let r1 := steam_price_for_item env.primary MAX_RETRIES
  if truthyStr r1.priceStr then
    { row := (name, r1.priceStr.getD [])
      succeeded := true
      priceStr := r1.priceStr
      contrib := r1.parsed.getD 0
      fallbackQuery := none
      fetchSleeps := r1.sleeps
      postSleeps := SUCCESS_DELAY :: cooldown }
  else
    let alt_name := pyStrip (stripQtyMarker name)
    let r2 := steam_price_for_item env.fallback 1
    if truthyStr r2.priceStr then
      { row := (name, r2.priceStr.getD [])
        succeeded := true
        priceStr := r2.priceStr
        contrib := r2.parsed.getD 0
        fallbackQuery := some (alt_name, r2.requests)
        fetchSleeps := r1.sleeps ++ r2.sleeps
        postSleeps := SUCCESS_DELAY :: cooldown }
    else
      { row := (name, errorMarker)
        succeeded := false
        priceStr := none
        contrib := 0
        fallbackQuery := some (alt_name, r2.requests)
        fetchSleeps := r1.sleeps ++ r2.sleeps
        postSleeps := ERROR_DELAY :: cooldown }

/-- The whole loop: process the cleaned names in order, the 1-based index
starting at `idx`; the item environment for loop index `i` is `env i`. -/
def runItems (env : Nat → ItemEnv) (idx : Nat) : List PyStr → List ItemOutcome
  | [] => []
  | name :: rest => processItem (env idx) idx name :: runItems env (idx + 1) rest

/-- The aggregate state of lines 244-247 after processing the recorded
outcomes: appended rows in order, the two counters, and the running
`total_value`. -/
structure Report where
  rows : List (PyStr × PyStr)
  success_count : Nat
  fail_count : Nat
  total_value : ℚ

/-- Accumulate the loop outcomes into the aggregate state exactly as the
loop body updates `rows`, `success_count`, `fail_count` and
`total_value`. -/
def buildReport : List ItemOutcome → Report
  | [] => { rows := [], success_count := 0, fail_count := 0, total_value := 0 }
  | o :: rest =>
    let r := buildReport rest
    { rows := o.row :: r.rows
      success_count := (if o.succeeded then 1 else 0) + r.success_count
      fail_count := (if o.succeeded then 0 else 1) + r.fail_count
      total_value := o.contrib + r.total_value }

/-- The resolution-and-aggregation core of `handle_image` (lines 244-278):
run the loop over the cleaned names, starting at index 1, and accumulate. -/
def handle_image_core (env : Nat → ItemEnv) (cleaned_names : List PyStr) : Report :=
  buildReport (runItems env 1 cleaned_names)

/-! ## Report rendering (lines 281-291)

The result file is written as a sequence of `rf.write` calls, each ending
in a newline; the blank separator of line 286 is a write of the bare
newline.  The summary value is rendered with the Python format spec
`,.2f`: two decimal places (ties to even) and thousands grouping of the
integer part.  (Python formats the binary float; the embedding performs
the same decimal rounding on the exact rational value.) -/

/-- Decimal digits of a natural number, most significant first
(the rendering of `{n}` in an f-string). -/
def natDigitsAux : Nat → Nat → PyStr
  | 0, _ => []
  | fuel + 1, n =>
    if n < 10 then [Char.ofNat (48 + n)]
    else natDigitsAux fuel (n / 10) ++ [Char.ofNat (48 + n % 10)]

/-- Decimal representation of a natural number. -/
def natDigitsStr (n : Nat) : PyStr := natDigitsAux (n + 1) n

/-- Round the ratio `n / d` (with `d` positive) to the nearest integer,
ties to even — the rounding of the `.2f` format spec. -/
def roundHalfEvenRatio (n : ℤ) (d : ℕ) : ℤ :=
  let f := n / (d : ℤ)
  let r := n % (d : ℤ)
  if 2 * r < (d : ℤ) then f
  else if (d : ℤ) < 2 * r then f + 1
  else if f % 2 = 0 then f else f + 1

/-- The value of `q` in cents, rounded half-to-even. -/
def centsOf (q : ℚ) : ℤ := roundHalfEvenRatio (q.num * 100) q.den

/-- Insert a comma after every group of three digits, counted from the
right; the input is the reversed digit string. -/
def groupRev : PyStr → Nat → PyStr
  | [], _ => []
  | c :: rest, k =>
    if k = 3 then ',' :: c :: groupRev rest 1
    else c :: groupRev rest (k + 1)

/-- Thousands grouping of a digit string. -/
def groupThousands (ds : PyStr) : PyStr := (groupRev ds.reverse 0).reverse

/-- A two-digit decimal field (the fractional part of `,.2f`). -/
def twoDigitStr (n : Nat) : PyStr :=
  if n < 10 then '0' :: natDigitsStr n else natDigitsStr n

/-- The rendering of the format spec `,.2f` on a non-negative value. -/
def formatCommaTwo (q : ℚ) : PyStr :=
  let c := centsOf q
  let ip := (c / 100).toNat
  let fp := (c % 100).toNat
  groupThousands (natDigitsStr ip) ++ '.' :: twoDigitStr fp

/-- The logical lines of the result file, in write order (lines 283-291):
the header, one tab-separated row per item, a blank separator, then the
five summary lines (generation timestamp, total detected, success count,
fail count, total value with the peso marker and grouped decimals). -/
def reportLines (genTime : PyStr) (cleaned_names : List PyStr) (r : Report) : List PyStr :=
  "Item Name\tPrice (PHP)".toList
    :: r.rows.map (fun p => p.1 ++ '\t' :: p.2)
    ++ [[],
        "Generated: ".toList ++ genTime,
        "Total Items OCR-detected: ".toList ++ natDigitsStr cleaned_names.length,
        "Success: ".toList ++ natDigitsStr r.success_count,
        "Failed: ".toList ++ natDigitsStr r.fail_count,
        "Total Value (parsed sum): ".toList ++ pesoLit ++ formatCommaTwo r.total_value]

/-- The full text of the result file: every logical line followed by a
newline. -/
def renderFile (genTime : PyStr) (cleaned_names : List PyStr) (r : Report) : PyStr :=
  (reportLines genTime cleaned_names r).foldr (fun l acc => l ++ '\n' :: acc) []

/-- Split a character stream at newlines (text lines of a file; a
terminating newline yields a final empty fragment). -/
def pySplitNL : PyStr → List PyStr
  | [] => [[]]
  | c :: rest =>
    if c = '\n' then [] :: pySplitNL rest
    else
      match pySplitNL rest with
      | l :: ls => (c :: l) :: ls
      | [] => [[c]]

/-! ## Helper lemmas and claim theorems -/

theorem steamLoop_priceStr_spec (responses : Nat → SteamResp) :
    ∀ fuel attempt s, (steamLoop responses attempt fuel).priceStr = some s →
      s ≠ [] ∧ (steamLoop responses attempt fuel).parsed = parse_price_to_float s := by
  intro fuel
  induction fuel with
  | zero => intro attempt s h; simp [steamLoop] at h
  | succ n ih =>
    intro attempt s h
    unfold steamLoop at h ⊢
    cases hr : responses attempt with
    | transportFail =>
      simp only [hr] at h ⊢
      exact ih (attempt + 1) s h
    | ok success lowest median =>
      cases success with
      | false =>
        simp only [hr] at h ⊢
        exact ih (attempt + 1) s h
      | true =>
        simp only [hr] at h ⊢
        by_cases ht : truthyStr (pyOr lowest median) = true
        · rw [if_pos ht] at h ⊢
          simp only at h
          refine ⟨?_, ?_⟩
          · rw [h] at ht
            simpa [truthyStr] using ht
          · simp only
            rw [h]
            rfl
        · rw [if_neg ht] at h
          simp at h

theorem processItem_of_primary (env : ItemEnv) (idx : Nat) (name : PyStr)
    (h : truthyStr (steam_price_for_item env.primary MAX_RETRIES).priceStr = true) :
    processItem env idx name =
      { row := (name, (steam_price_for_item env.primary MAX_RETRIES).priceStr.getD [])
        succeeded := true
        priceStr := (steam_price_for_item env.primary MAX_RETRIES).priceStr
        contrib := (steam_price_for_item env.primary MAX_RETRIES).parsed.getD 0
        fallbackQuery := none
        fetchSleeps := (steam_price_for_item env.primary MAX_RETRIES).sleeps
        postSleeps := SUCCESS_DELAY :: cooldownSleeps idx } := by
  simp only [processItem]
  rw [if_pos h]

theorem processItem_of_fallback (env : ItemEnv) (idx : Nat) (name : PyStr)
    (h1 : ¬ truthyStr (steam_price_for_item env.primary MAX_RETRIES).priceStr = true)
    (h2 : truthyStr (steam_price_for_item env.fallback 1).priceStr = true) :
    processItem env idx name =
      { row := (name, (steam_price_for_item env.fallback 1).priceStr.getD [])
        succeeded := true
        priceStr := (steam_price_for_item env.fallback 1).priceStr
        contrib := (steam_price_for_item env.fallback 1).parsed.getD 0
        fallbackQuery := some (pyStrip (stripQtyMarker name), (steam_price_for_item env.fallback 1).requests)
        fetchSleeps := (steam_price_for_item env.primary MAX_RETRIES).sleeps ++ (steam_price_for_item env.fallback 1).sleeps
        postSleeps := SUCCESS_DELAY :: cooldownSleeps idx } := by
  simp only [processItem]
  rw [if_neg h1, if_pos h2]

theorem processItem_of_fail (env : ItemEnv) (idx : Nat) (name : PyStr)
    (h1 : ¬ truthyStr (steam_price_for_item env.primary MAX_RETRIES).priceStr = true)
    (h2 : ¬ truthyStr (steam_price_for_item env.fallback 1).priceStr = true) :
    processItem env idx name =
      { row := (name, errorMarker)
        succeeded := false
        priceStr := none
        contrib := 0
        fallbackQuery := some (pyStrip (stripQtyMarker name), (steam_price_for_item env.fallback 1).requests)
        fetchSleeps := (steam_price_for_item env.primary MAX_RETRIES).sleeps ++ (steam_price_for_item env.fallback 1).sleeps
        postSleeps := ERROR_DELAY :: cooldownSleeps idx } := by
  simp only [processItem]
  rw [if_neg h1, if_neg h2]

theorem steam_priceStr_spec (responses : Nat → SteamResp) (retries : Nat) (s : PyStr)
    (h : (steam_price_for_item responses retries).priceStr = some s) :
    s ≠ [] ∧ (steam_price_for_item responses retries).parsed = parse_price_to_float s :=
  steamLoop_priceStr_spec responses retries 1 s h

theorem steam_not_truthy_iff (responses : Nat → SteamResp) (retries : Nat) :
    (¬ truthyStr (steam_price_for_item responses retries).priceStr = true)
      ↔ (steam_price_for_item responses retries).priceStr = none := by
  constructor
  · intro h
    cases hp : (steam_price_for_item responses retries).priceStr with
    | none => rfl
    | some s =>
      exfalso
      apply h
      rw [hp]
      have := (steam_priceStr_spec responses retries s hp).1
      simp [truthyStr, this]
  · intro h
    rw [h]
    simp [truthyStr]

theorem processItem_row_fst (env : ItemEnv) (idx : Nat) (name : PyStr) :
    (processItem env idx name).row.1 = name := by
  by_cases h1 : truthyStr (steam_price_for_item env.primary MAX_RETRIES).priceStr = true
  · rw [processItem_of_primary env idx name h1]
  · by_cases h2 : truthyStr (steam_price_for_item env.fallback 1).priceStr = true
    · rw [processItem_of_fallback env idx name h1 h2]
    · rw [processItem_of_fail env idx name h1 h2]

theorem processItem_succeeded_iff (env : ItemEnv) (idx : Nat) (name : PyStr) :
    (processItem env idx name).succeeded = (processItem env idx name).priceStr.isSome := by
  by_cases h1 : truthyStr (steam_price_for_item env.primary MAX_RETRIES).priceStr = true
  · rw [processItem_of_primary env idx name h1]
    cases hp : (steam_price_for_item env.primary MAX_RETRIES).priceStr with
    | none => rw [hp] at h1; simp [truthyStr] at h1
    | some s => simp
  · by_cases h2 : truthyStr (steam_price_for_item env.fallback 1).priceStr = true
    · rw [processItem_of_fallback env idx name h1 h2]
      cases hp : (steam_price_for_item env.fallback 1).priceStr with
      | none => rw [hp] at h2; simp [truthyStr] at h2
      | some s => simp
    · rw [processItem_of_fail env idx name h1 h2]
      simp

theorem processItem_contrib_spec (env : ItemEnv) (idx : Nat) (name : PyStr) :
    (processItem env idx name).contrib
      = ((processItem env idx name).priceStr.bind parse_price_to_float).getD 0 := by
  by_cases h1 : truthyStr (steam_price_for_item env.primary MAX_RETRIES).priceStr = true
  · rw [processItem_of_primary env idx name h1]
    cases hp : (steam_price_for_item env.primary MAX_RETRIES).priceStr with
    | none => rw [hp] at h1; simp [truthyStr] at h1
    | some s =>
      have := (steam_priceStr_spec env.primary MAX_RETRIES s hp).2
      simp [this]
  · by_cases h2 : truthyStr (steam_price_for_item env.fallback 1).priceStr = true
    · rw [processItem_of_fallback env idx name h1 h2]
      cases hp : (steam_price_for_item env.fallback 1).priceStr with
      | none => rw [hp] at h2; simp [truthyStr] at h2
      | some s =>
        have := (steam_priceStr_spec env.fallback 1 s hp).2
        simp [this]
    · rw [processItem_of_fail env idx name h1 h2]
      simp

theorem runItems_length (env : Nat → ItemEnv) (names : List PyStr) :
    ∀ k, (runItems env k names).length = names.length := by
  induction names with
  | nil => intro k; rfl
  | cons n rest ih => intro k; simp [runItems, ih]

theorem runItems_getElem? (env : Nat → ItemEnv) (names : List PyStr) :
    ∀ k i, (runItems env k names)[i]? = (names[i]?).map (fun n => processItem (env (k + i)) (k + i) n) := by
  induction names with
  | nil => intro k i; simp [runItems]
  | cons n rest ih =>
    intro k i
    cases i with
    | zero => simp [runItems]
    | succ j =>
      have e : k + 1 + j = k + (j + 1) := by omega
      simp only [runItems, List.getElem?_cons_succ, ih (k + 1) j, e]

theorem buildReport_rows (outs : List ItemOutcome) :
    (buildReport outs).rows = outs.map (fun o => o.row) := by
  induction outs with
  | nil => rfl
  | cons o rest ih => simp [buildReport, ih]

theorem buildReport_success_count (outs : List ItemOutcome) :
    (buildReport outs).success_count = (outs.filter (fun o => o.succeeded)).length := by
  induction outs with
  | nil => rfl
  | cons o rest ih =>
    simp only [buildReport, ih, List.filter]
    cases h : o.succeeded <;> simp [h, Nat.add_comm]

theorem buildReport_fail_count (outs : List ItemOutcome) :
    (buildReport outs).fail_count = (outs.filter (fun o => !o.succeeded)).length := by
  induction outs with
  | nil => rfl
  | cons o rest ih =>
    simp only [buildReport, ih, List.filter]
    cases h : o.succeeded <;> simp [h, Nat.add_comm]

theorem buildReport_total_value (outs : List ItemOutcome) :
    (buildReport outs).total_value = (outs.map (fun o => o.contrib)).sum := by
  induction outs with
  | nil => rfl
  | cons o rest ih => simp [buildReport, ih]

theorem sum_getD_filterMap (f : ItemOutcome → Option ℚ) (outs : List ItemOutcome) :
    (outs.map (fun o => ((f o).getD 0))).sum = (outs.filterMap f).sum := by
  induction outs with
  | nil => rfl
  | cons o rest ih =>
    cases h : f o <;> simp [List.filterMap_cons, h, ih]

theorem runItems_forall (env : Nat → ItemEnv) (names : List PyStr)
    (P : ItemOutcome → Prop) (hP : ∀ e i n, P (processItem e i n)) :
    ∀ k, ∀ o ∈ runItems env k names, P o := by
  induction names with
  | nil => intro k o ho; simp [runItems] at ho
  | cons n rest ih =>
    intro k o ho
    simp only [runItems, List.mem_cons] at ho
    rcases ho with rfl | ho
    · exact hP _ _ _
    · exact ih (k + 1) o ho

theorem filter_partition_length (p : ItemOutcome → Bool) (l : List ItemOutcome) :
    (l.filter p).length + (l.filter (fun o => !p o)).length = l.length := by
  induction l with
  | nil => rfl
  | cons o rest ih =>
    cases h : p o <;> simp [List.filter, h] <;> omega

/-- C1: for every run over a list of normalized candidate names, the loop
appends one row per candidate and increments exactly one of the two
counters per candidate, so `successCount + failCount` and the number of
rows both equal the length of the candidate list (which is what the
report renders as `totalDetected`). -/
theorem counts_and_rows_match_candidates (env : Nat → ItemEnv) (names : List PyStr) :
    (handle_image_core env names).success_count + (handle_image_core env names).fail_count
        = names.length
      ∧ (handle_image_core env names).rows.length = names.length := by
  constructor
  · rw [handle_image_core, buildReport_success_count, buildReport_fail_count,
      filter_partition_length, runItems_length]
  · rw [handle_image_core, buildReport_rows, List.length_map, runItems_length]

theorem runItems_map_row_fst (env : Nat → ItemEnv) (names : List PyStr) :
    ∀ k, (runItems env k names).map (fun o => o.row.1) = names := by
  induction names with
  | nil => intro k; rfl
  | cons n rest ih =>
    intro k
    simp only [runItems, List.map_cons, processItem_row_fst, ih (k + 1)]

/-- C4: no per-item error is fatal: whatever the response environment does
(transport failures, absent listings, unparsable price strings), the loop
processes every candidate and the finished report carries exactly one row
per candidate, recording the candidate names in input order. -/
theorem every_candidate_gets_a_row (env : Nat → ItemEnv) (names : List PyStr) :
    (handle_image_core env names).rows.map Prod.fst = names := by
  rw [handle_image_core, buildReport_rows, List.map_map]
  exact runItems_map_row_fst env names 1


/-- C2: the reported `totalValue` equals the sum of the parsed values over
exactly those rows whose resolution yielded a price string and whose price
string parsed successfully (stated with `filterMap`, so a row with an
unparsable price string is excluded from the sum), while `successCount`
still counts every row with a price string, parsable or not. -/
theorem total_value_is_sum_of_parsable (env : Nat → ItemEnv) (names : List PyStr) :
    (handle_image_core env names).total_value
        = ((runItems env 1 names).filterMap (fun o => o.priceStr.bind parse_price_to_float)).sum
      ∧ (handle_image_core env names).success_count
        = ((runItems env 1 names).filter (fun o => o.priceStr.isSome)).length := by
  constructor
  · rw [handle_image_core, buildReport_total_value,
      ← sum_getD_filterMap (fun o => o.priceStr.bind parse_price_to_float)]
    apply congrArg List.sum
    apply List.map_congr_left
    intro o ho
    exact runItems_forall env names
      (fun o => o.contrib = (o.priceStr.bind parse_price_to_float).getD 0)
      (fun e i n => processItem_contrib_spec e i n) 1 o ho
  · rw [handle_image_core, buildReport_success_count]
    apply congrArg List.length
    apply List.filter_congr
    intro o ho
    exact runItems_forall env names
      (fun o => o.succeeded = o.priceStr.isSome)
      (fun e i n => processItem_succeeded_iff e i n) 1 o ho

theorem pyReplaceAux_del_single (c : Char) :
    ∀ fuel s, List.length s ≤ fuel →
      pyReplaceAux [c] [] fuel s = s.filter (fun x => !(x == c)) := by
  intro fuel
  induction fuel with
  | zero =>
    intro s hs
    cases s with
    | nil => rfl
    | cons a rest => simp at hs
  | succ n ih =>
    intro s hs
    cases s with
    | nil => rfl
    | cons a rest =>
      simp only [List.length_cons] at hs
      have hs2 : rest.length ≤ n := by omega
      by_cases hac : a = c
      · subst hac
        have hpre : ([a].isPrefixOf (a :: rest)) = true := by
          simp [List.isPrefixOf]
        simp only [pyReplaceAux]
        rw [if_pos ⟨by simp, hpre⟩]
        have h0 : List.length [a] - 1 = 0 := rfl
        rw [h0, List.drop_zero, ih rest hs2]
        simp [List.filter_cons]
      · have hpre : ([c].isPrefixOf (a :: rest)) = false := by
          simp only [List.isPrefixOf]
          simp [beq_iff_eq]
          exact fun h => hac h.symm
        simp only [pyReplaceAux]
        rw [if_neg (fun hh => by rw [hpre] at hh; exact Bool.false_ne_true hh.2)]
        rw [ih rest hs2]
        simp [List.filter_cons, beq_iff_eq, hac]

theorem pyReplaceAux_map_single (c d : Char) :
    ∀ fuel s, List.length s ≤ fuel →
      pyReplaceAux [c] [d] fuel s = s.map (fun x => if x == c then d else x) := by
  intro fuel
  induction fuel with
  | zero =>
    intro s hs
    cases s with
    | nil => rfl
    | cons a rest => simp at hs
  | succ n ih =>
    intro s hs
    cases s with
    | nil => rfl
    | cons a rest =>
      simp only [List.length_cons] at hs
      have hs2 : rest.length ≤ n := by omega
      by_cases hac : a = c
      · subst hac
        have hpre : ([a].isPrefixOf (a :: rest)) = true := by
          simp [List.isPrefixOf]
        simp only [pyReplaceAux]
        rw [if_pos ⟨by simp, hpre⟩]
        have h0 : List.length [a] - 1 = 0 := rfl
        rw [h0, List.drop_zero, ih rest hs2]
        simp
      · have hpre : ([c].isPrefixOf (a :: rest)) = false := by
          simp only [List.isPrefixOf]
          simp [beq_iff_eq]
          exact fun h => hac h.symm
        simp only [pyReplaceAux]
        rw [if_neg (fun hh => by rw [hpre] at hh; exact Bool.false_ne_true hh.2)]
        rw [ih rest hs2]
        have hbeq : (a == c) = false := by
          simp [beq_iff_eq]
          exact hac
        simp [List.map_cons, hbeq, hac]

/-- C3: `parse_price_to_float` applies the both-separators rule before the
only-comma rule: after currency-symbol stripping, a string still holding
both `,` and `.` has every `,` removed (never treated as the decimal
point), and a string holding only `,` has it substituted by `.`; the
spec's five unit cases parse as stated. -/
theorem parse_price_separator_rules :
    (∀ s, 0 < pyCount (stripCurrencySymbols s) ','
        → 0 < pyCount (stripCurrencySymbols s) '.'
        → normalizeSeparators (stripCurrencySymbols s)
            = (stripCurrencySymbols s).filter (fun c => !(c == ','))) ∧
    (∀ s, 0 < pyCount (stripCurrencySymbols s) ','
        → pyCount (stripCurrencySymbols s) '.' = 0
        → normalizeSeparators (stripCurrencySymbols s)
            = (stripCurrencySymbols s).map (fun c => if c == ',' then '.' else c)) ∧
    parse_price_to_float "₱34.38".toList = some 34.38 ∧
    parse_price_to_float "$45.32".toList = some 45.32 ∧
    parse_price_to_float "56,49₴".toList = some 56.49 ∧
    parse_price_to_float "2,450.00".toList = some 2450.00 ∧
    parse_price_to_float "not a number".toList = none := by
  refine ⟨?_, ?_, ?_, ?_, ?_, ?_, by decide⟩
  · intro s h1 h2
    rw [normalizeSeparators, if_pos ⟨h1, h2⟩, pyReplace,
      pyReplaceAux_del_single ',' _ _ (le_refl _)]
  · intro s h1 h2
    rw [normalizeSeparators]
    rw [if_neg (fun hh => by omega), if_pos ⟨h1, h2⟩, pyReplace,
      pyReplaceAux_map_single ',' '.' _ _ (le_refl _)]
  · have h : parse_price_to_float "₱34.38".toList = some (mkRat 3438 100) := by decide
    rw [h]
    norm_num [Rat.mkRat_eq_div]
  · have h : parse_price_to_float "$45.32".toList = some (mkRat 4532 100) := by decide
    rw [h]
    norm_num [Rat.mkRat_eq_div]
  · have h : parse_price_to_float "56,49₴".toList = some (mkRat 5649 100) := by decide
    rw [h]
    norm_num [Rat.mkRat_eq_div]
  · have h : parse_price_to_float "2,450.00".toList = some (mkRat 245000 100) := by decide
    rw [h]
    norm_num [Rat.mkRat_eq_div]

/-- Witness for C3: the thousands-separator branch at the concrete input
`"2,450.00"`. -/
theorem parse_price_separator_rules_witness :
    normalizeSeparators (stripCurrencySymbols "2,450.00".toList)
      = (stripCurrencySymbols "2,450.00".toList).filter (fun c => !(c == ',')) :=
  parse_price_separator_rules.1 "2,450.00".toList (by decide) (by decide)

theorem steam_requests_one (responses : Nat → SteamResp) :
    (steam_price_for_item responses 1).requests = 1 := by
  unfold steam_price_for_item steamLoop
  cases h : responses 1 with
  | transportFail => simp [h, steamLoop]
  | ok success lowest median =>
    cases success with
    | false => simp [h, steamLoop]
    | true =>
      simp only [h]
      by_cases ht : truthyStr (pyOr lowest median) = true
      · rw [if_pos ht]
      · rw [if_neg ht]

/-- C5: when the primary attempts yield no price string, the resolver
issues exactly one fallback request whose query name is the normalized
name with a leading case-insensitive quantity marker of the form
`x<digits>` stripped; for `"x5 Arcana"` the fallback query uses
`"Arcana"`. -/
theorem fallback_uses_stripped_quantity_marker (env : ItemEnv) (idx : Nat) (name : PyStr)
    (h : (steam_price_for_item env.primary MAX_RETRIES).priceStr = none) :
    (processItem env idx name).fallbackQuery = some (pyStrip (stripQtyMarker name), 1)
      ∧ pyStrip (stripQtyMarker "x5 Arcana".toList) = "Arcana".toList := by
  have h1 : ¬ truthyStr (steam_price_for_item env.primary MAX_RETRIES).priceStr = true :=
    (steam_not_truthy_iff env.primary MAX_RETRIES).mpr h
  refine ⟨?_, by decide⟩
  by_cases h2 : truthyStr (steam_price_for_item env.fallback 1).priceStr = true
  · rw [processItem_of_fallback env idx name h1 h2, steam_requests_one]
  · rw [processItem_of_fail env idx name h1 h2, steam_requests_one]

/-- Witness for C5: an all-failing environment and the name `"x5 Arcana"`;
the one fallback request queries `"Arcana"`. -/
theorem fallback_uses_stripped_quantity_marker_witness :
    (processItem ⟨fun _ => SteamResp.transportFail, fun _ => SteamResp.transportFail⟩
        1 "x5 Arcana".toList).fallbackQuery
      = some ("Arcana".toList, 1) := by
  rw [(fallback_uses_stripped_quantity_marker
    ⟨fun _ => SteamResp.transportFail, fun _ => SteamResp.transportFail⟩
    1 "x5 Arcana".toList (by decide)).1]
  decide

/-- C9: a lookup answered with success but no price field and a lookup
whose transport attempts all fail return the identical result (no display
string, no parsed value), and downstream any item whose primary and
fallback lookups both return no price string gets the same fixed
error-marker row and counts as the same kind of failure. -/
theorem notlisted_and_fetcherror_indistinguishable (r1 r2 : Nat → SteamResp)
    (h1 : r1 1 = SteamResp.ok true none none)
    (h2 : ∀ k, r2 k = SteamResp.transportFail) :
    ((steam_price_for_item r1 MAX_RETRIES).priceStr = none
      ∧ (steam_price_for_item r1 MAX_RETRIES).parsed = none
      ∧ (steam_price_for_item r2 MAX_RETRIES).priceStr = none
      ∧ (steam_price_for_item r2 MAX_RETRIES).parsed = none)
    ∧ (∀ env : ItemEnv, ∀ idx name,
        (steam_price_for_item env.primary MAX_RETRIES).priceStr = none →
        (steam_price_for_item env.fallback 1).priceStr = none →
        (processItem env idx name).row = (name, errorMarker)
          ∧ (processItem env idx name).succeeded = false) := by
  constructor
  · refine ⟨?_, ?_, ?_, ?_⟩
    · unfold steam_price_for_item MAX_RETRIES steamLoop
      rw [h1]
      simp [pyOr, truthyStr]
    · unfold steam_price_for_item MAX_RETRIES steamLoop
      rw [h1]
      simp [pyOr, truthyStr]
    · unfold steam_price_for_item MAX_RETRIES
      simp [steamLoop, h2]
    · unfold steam_price_for_item MAX_RETRIES
      simp [steamLoop, h2]
  · intro env idx name hp hf
    have hn1 : ¬ truthyStr (steam_price_for_item env.primary MAX_RETRIES).priceStr = true :=
      (steam_not_truthy_iff env.primary MAX_RETRIES).mpr hp
    have hn2 : ¬ truthyStr (steam_price_for_item env.fallback 1).priceStr = true :=
      (steam_not_truthy_iff env.fallback 1).mpr hf
    rw [processItem_of_fail env idx name hn1 hn2]
    exact ⟨rfl, rfl⟩

/-- Witness for C9: the success-without-price stream against the
all-transport-failure stream. -/
theorem notlisted_and_fetcherror_indistinguishable_witness :
    (steam_price_for_item (fun _ => SteamResp.ok true none none) MAX_RETRIES).priceStr = none :=
  (notlisted_and_fetcherror_indistinguishable
    (fun _ => SteamResp.ok true none none) (fun _ => SteamResp.transportFail)
    rfl (fun _ => rfl)).1.1

/-- C10: when the fallback request succeeds, the report row records the
original normalized name (quantity marker included), not the stripped
alternate name that was sent to the price source. -/
theorem fallback_success_keeps_original_name (env : ItemEnv) (idx : Nat) (name s : PyStr)
    (h1 : (steam_price_for_item env.primary MAX_RETRIES).priceStr = none)
    (h2 : (steam_price_for_item env.fallback 1).priceStr = some s) :
    (processItem env idx name).row = (name, s) := by
  have hn1 : ¬ truthyStr (steam_price_for_item env.primary MAX_RETRIES).priceStr = true :=
    (steam_not_truthy_iff env.primary MAX_RETRIES).mpr h1
  have ht2 : truthyStr (steam_price_for_item env.fallback 1).priceStr = true := by
    rw [h2]
    have := (steam_priceStr_spec env.fallback 1 s h2).1
    simp [truthyStr, this]
  rw [processItem_of_fallback env idx name hn1 ht2, h2]
  rfl

/-- Witness for C10: primary fails, the fallback returns a price, and the
row still says `"x5 Arcana"`. -/
theorem fallback_success_keeps_original_name_witness :
    (processItem ⟨fun _ => SteamResp.transportFail, fun _ => SteamResp.ok true (some "₱5.00".toList) none⟩
        1 "x5 Arcana".toList).row = ("x5 Arcana".toList, "₱5.00".toList) :=
  fallback_success_keeps_original_name
    ⟨fun _ => SteamResp.transportFail, fun _ => SteamResp.ok true (some "₱5.00".toList) none⟩
    1 "x5 Arcana".toList "₱5.00".toList (by decide) (by decide)

theorem cooldownSleeps_sum_nonneg (idx : Nat) : 0 ≤ (cooldownSleeps idx).sum := by
  unfold cooldownSleeps
  split
  · simp [COOLDOWN_TIME]
  · simp

theorem cooldownSleeps_sum_of_cooldown (idx : Nat) (h : idx % COOLDOWN_EVERY = 0) :
    (cooldownSleeps idx).sum = COOLDOWN_TIME := by
  unfold cooldownSleeps
  rw [if_pos h]
  simp

/-- C8: between two consecutive item resolutions at least `SUCCESS_DELAY`
elapses when the earlier item obtained a price string and at least
`ERROR_DELAY` elapses when it failed, and after every
`COOLDOWN_EVERY`-th processed item (success or failure) the inter-item
pause additionally includes `COOLDOWN_TIME`; the second conjunct places
`processItem` at every position of the run, with its 1-based index. -/
theorem pacing_between_items :
    (∀ env idx name,
        ((processItem env idx name).succeeded = true →
          SUCCESS_DELAY ≤ ((processItem env idx name).postSleeps).sum)
      ∧ ((processItem env idx name).succeeded = false →
          ERROR_DELAY ≤ ((processItem env idx name).postSleeps).sum)
      ∧ (idx % COOLDOWN_EVERY = 0 →
          ((processItem env idx name).postSleeps).sum
            = (if (processItem env idx name).succeeded = true then SUCCESS_DELAY else ERROR_DELAY)
                + COOLDOWN_TIME))
    ∧ (∀ env names i, (runItems env 1 names)[i]?
        = (names[i]?).map (fun n => processItem (env (1 + i)) (1 + i) n)) := by
  constructor
  · intro env idx name
    have key : ∀ D : ℚ, ((processItem env idx name).postSleeps = D :: cooldownSleeps idx) →
        (D ≤ ((processItem env idx name).postSleeps).sum
          ∧ (idx % COOLDOWN_EVERY = 0 →
              ((processItem env idx name).postSleeps).sum = D + COOLDOWN_TIME)) := by
      intro D hD
      rw [hD, List.sum_cons]
      constructor
      · exact le_add_of_nonneg_right (cooldownSleeps_sum_nonneg idx)
      · intro hmod
        rw [cooldownSleeps_sum_of_cooldown idx hmod]
    by_cases hp : truthyStr (steam_price_for_item env.primary MAX_RETRIES).priceStr = true
    · have hchar := processItem_of_primary env idx name hp
      have hsucc : (processItem env idx name).succeeded = true := by rw [hchar]
      have hpost := key SUCCESS_DELAY (by rw [hchar])
      refine ⟨fun _ => hpost.1, fun hcontra => ?_, fun hmod => ?_⟩
      · rw [hsucc] at hcontra
        exact absurd hcontra (by simp)
      · rw [hsucc, if_pos rfl]
        exact hpost.2 hmod
    · by_cases hf : truthyStr (steam_price_for_item env.fallback 1).priceStr = true
      · have hchar := processItem_of_fallback env idx name hp hf
        have hsucc : (processItem env idx name).succeeded = true := by rw [hchar]
        have hpost := key SUCCESS_DELAY (by rw [hchar])
        refine ⟨fun _ => hpost.1, fun hcontra => ?_, fun hmod => ?_⟩
        · rw [hsucc] at hcontra
          exact absurd hcontra (by simp)
        · rw [hsucc, if_pos rfl]
          exact hpost.2 hmod
      · have hchar := processItem_of_fail env idx name hp hf
        have hsucc : (processItem env idx name).succeeded = false := by rw [hchar]
        have hpost := key ERROR_DELAY (by rw [hchar])
        refine ⟨fun hcontra => ?_, fun _ => hpost.1, fun hmod => ?_⟩
        · rw [hsucc] at hcontra
          exact absurd hcontra (by simp)
        · rw [hsucc, if_neg (by simp)]
          exact hpost.2 hmod
  · intro env names i
    exact runItems_getElem? env names 1 i

/-- Witness for C8: a failing one-item run pauses at least `ERROR_DELAY`
before the next item. -/
theorem pacing_between_items_witness :
    ERROR_DELAY ≤ ((processItem ⟨fun _ => SteamResp.transportFail, fun _ => SteamResp.transportFail⟩
        1 "Foo".toList).postSleeps).sum :=
  (pacing_between_items.1 ⟨fun _ => SteamResp.transportFail, fun _ => SteamResp.transportFail⟩
    1 "Foo".toList).2.1 (by decide)

/-- C6: the rejection rules of the claim hold (`"5"`, `"12,345"` and
single-character tokens are rejected, and accepted tokens are kept
stripped), but the quote replacement does not: the four replacement
targets in the double-encoded source are the mojibake sequences, so the
typographic quote U+2019 of `"Dragon’s Blade"` passes through
`quoteReplace` unchanged and `clean_item_name` reduces to stripping the
NFKC image of the unmodified input (NFKC itself leaves U+2019 in place,
as it has no compatibility decomposition) — the string never becomes
ASCII `"Dragon's Blade"`. -/
theorem normalizer_rejections_hold_but_quotes_unchanged :
    (∀ nfkc : PyStr → PyStr,
        clean_item_name nfkc "Dragon’s Blade".toList
          = pyStrip (nfkc ("Dragon’s Blade".toList)))
    ∧ quoteReplace "Dragon’s Blade".toList = "Dragon’s Blade".toList
    ∧ "Dragon’s Blade".toList ≠ "Dragon".toList ++ apos :: "s Blade".toList
    ∧ ocrFilterTokens ["5".toList, "12,345".toList, "a".toList, " Dragon’s Blade ".toList]
        = ["Dragon’s Blade".toList] := by
  have hq : quoteReplace "Dragon’s Blade".toList = "Dragon’s Blade".toList := by decide
  refine ⟨?_, hq, by decide, by decide⟩
  intro nfkc
  unfold clean_item_name
  rw [if_neg (by decide), hq]

theorem pySplitNL_append_line (l : PyStr) (h : '\n' ∉ l) (rest : PyStr) :
    pySplitNL (l ++ '\n' :: rest) = l :: pySplitNL rest := by
  induction l with
  | nil => simp [pySplitNL]
  | cons c cs ih =>
    have hc : ¬ c = '\n' := fun e => h (by rw [e]; exact List.mem_cons_self _ _)
    have ih2 := ih (fun hm => h (List.mem_cons_of_mem _ hm))
    simp only [List.cons_append, pySplitNL, if_neg hc]
    rw [List.append_eq, ih2]

theorem pySplitNL_foldr (lines : List PyStr) (h : ∀ l ∈ lines, '\n' ∉ l) :
    pySplitNL (lines.foldr (fun l acc => l ++ '\n' :: acc) []) = lines ++ [[]] := by
  induction lines with
  | nil => simp [pySplitNL]
  | cons l ls ih =>
    rw [List.foldr_cons, pySplitNL_append_line l (h l (List.mem_cons_self _ _)) _,
      ih (fun x hx => h x (List.mem_cons_of_mem _ hx))]
    rfl

theorem natDigitsAux_mem (fuel : Nat) :
    ∀ n c, c ∈ natDigitsAux fuel n → 48 ≤ c.toNat ∧ c.toNat ≤ 57 := by
  induction fuel with
  | zero => intro n c hc; simp [natDigitsAux] at hc
  | succ m ih =>
    intro n c hc
    unfold natDigitsAux at hc
    by_cases h : n < 10
    · rw [if_pos h] at hc
      simp at hc
      subst hc
      interval_cases n <;> decide
    · rw [if_neg h] at hc
      rcases List.mem_append.mp hc with h1 | h2
      · exact ih _ c h1
      · simp at h2
        subst h2
        have hlt : n % 10 < 10 := Nat.mod_lt _ (by norm_num)
        generalize hk : n % 10 = k at hlt ⊢
        interval_cases k <;> decide

theorem nl_not_mem_natDigitsStr (n : Nat) : '\n' ∉ natDigitsStr n := by
  intro h
  have := natDigitsAux_mem (n + 1) n '\n' h
  revert this
  decide

theorem groupRev_mem (s : PyStr) : ∀ k c, c ∈ groupRev s k → c ∈ s ∨ c = ',' := by
  induction s with
  | nil => intro k c hc; simp [groupRev] at hc
  | cons a rest ih =>
    intro k c hc
    unfold groupRev at hc
    by_cases hk : k = 3
    · rw [if_pos hk] at hc
      rcases List.mem_cons.mp hc with rfl | hc2
      · exact Or.inr rfl
      · rcases List.mem_cons.mp hc2 with rfl | hc3
        · exact Or.inl (List.mem_cons_self _ _)
        · rcases ih 1 c hc3 with hm | he
          · exact Or.inl (List.mem_cons_of_mem _ hm)
          · exact Or.inr he
    · rw [if_neg hk] at hc
      rcases List.mem_cons.mp hc with rfl | hc2
      · exact Or.inl (List.mem_cons_self _ _)
      · rcases ih (k + 1) c hc2 with hm | he
        · exact Or.inl (List.mem_cons_of_mem _ hm)
        · exact Or.inr he

theorem nl_not_mem_formatCommaTwo (q : ℚ) : '\n' ∉ formatCommaTwo q := by
  intro h
  unfold formatCommaTwo at h
  rcases List.mem_append.mp h with h1 | h2
  · unfold groupThousands at h1
    rcases groupRev_mem _ _ _ (List.mem_reverse.mp h1) with hm | he
    · have := natDigitsAux_mem _ _ _ (List.mem_reverse.mp hm)
      revert this
      decide
    · revert he
      decide
  · rcases List.mem_cons.mp h2 with he | h3
    · revert he
      decide
    · unfold twoDigitStr at h3
      by_cases hlt : ((centsOf q % 100).toNat) < 10
      · rw [if_pos hlt] at h3
        rcases List.mem_cons.mp h3 with he | h4
        · revert he
          decide
        · exact absurd (natDigitsAux_mem _ _ _ h4) (by decide)
      · rw [if_neg hlt] at h3
        exact absurd (natDigitsAux_mem _ _ _ h3) (by decide)

/-- C7 (amended): the rendered report file consists of the header line,
one tab-separated `name<TAB>priceOrMarker` row per item in input order, a
trailing blank line, then FIVE summary lines — generation timestamp,
total detected, success count, fail count, and the total value formatted
as a grouped decimal with two decimal places and the currency marker —
the final `[]` fragment reflecting the file's terminating newline. -/
theorem report_file_five_summary_lines (ts : PyStr) (env : Nat → ItemEnv) (names : List PyStr)
    (hts : '\n' ∉ ts)
    (hrows : ∀ p ∈ (handle_image_core env names).rows, '\n' ∉ p.1 ∧ '\n' ∉ p.2) :
    pySplitNL (renderFile ts names (handle_image_core env names))
      = "Item Name\tPrice (PHP)".toList
          :: ((handle_image_core env names).rows.map (fun p => p.1 ++ '\t' :: p.2)
            ++ [[],
                "Generated: ".toList ++ ts,
                "Total Items OCR-detected: ".toList ++ natDigitsStr names.length,
                "Success: ".toList ++ natDigitsStr (handle_image_core env names).success_count,
                "Failed: ".toList ++ natDigitsStr (handle_image_core env names).fail_count,
                "Total Value (parsed sum): ".toList ++ pesoLit
                  ++ formatCommaTwo (handle_image_core env names).total_value,
                []]) := by
  have hlines : ∀ l ∈ reportLines ts names (handle_image_core env names), '\n' ∉ l := by
    intro l hl
    unfold reportLines at hl
    rcases List.mem_cons.mp hl with rfl | hl2
    · decide
    rcases List.mem_append.mp hl2 with hrow | hsum
    · rcases List.mem_map.mp hrow with ⟨p, hp, rfl⟩
      intro hmem
      rcases List.mem_append.mp hmem with hm1 | hm2
      · exact (hrows p hp).1 hm1
      · rcases List.mem_cons.mp hm2 with he | hm3
        · exact absurd he (by decide)
        · exact (hrows p hp).2 hm3
    · simp only [List.mem_cons, List.not_mem_nil, or_false] at hsum
      rcases hsum with rfl | rfl | rfl | rfl | rfl | rfl
      · simp
      · intro hmem
        rcases List.mem_append.mp hmem with hm | hm
        · revert hm
          decide
        · exact hts hm
      · intro hmem
        rcases List.mem_append.mp hmem with hm | hm
        · revert hm
          decide
        · exact nl_not_mem_natDigitsStr _ hm
      · intro hmem
        rcases List.mem_append.mp hmem with hm | hm
        · revert hm
          decide
        · exact nl_not_mem_natDigitsStr _ hm
      · intro hmem
        rcases List.mem_append.mp hmem with hm | hm
        · revert hm
          decide
        · exact nl_not_mem_natDigitsStr _ hm
      · intro hmem
        rcases List.mem_append.mp hmem with hm | hm
        · rcases List.mem_append.mp hm with hm2 | hm2 <;> revert hm2 <;> decide
        · exact nl_not_mem_formatCommaTwo _ hm
  rw [renderFile, pySplitNL_foldr _ hlines]
  simp [reportLines, List.append_assoc]

/-- Witness for C7: a successful one-item run, rendered and split. -/
theorem report_file_five_summary_lines_witness :
    pySplitNL (renderFile "TS".toList ["Dota Plus".toList]
        (handle_image_core
          (fun _ => ⟨fun _ => SteamResp.ok true (some "₱100.00".toList) none,
                     fun _ => SteamResp.transportFail⟩)
          ["Dota Plus".toList]))
      = "Item Name\tPrice (PHP)".toList
          :: ((handle_image_core
                (fun _ => ⟨fun _ => SteamResp.ok true (some "₱100.00".toList) none,
                           fun _ => SteamResp.transportFail⟩)
                ["Dota Plus".toList]).rows.map (fun p => p.1 ++ '\t' :: p.2)
            ++ [[],
                "Generated: ".toList ++ "TS".toList,
                "Total Items OCR-detected: ".toList ++ natDigitsStr (List.length ["Dota Plus".toList]),
                "Success: ".toList ++ natDigitsStr (handle_image_core
                  (fun _ => ⟨fun _ => SteamResp.ok true (some "₱100.00".toList) none,
                             fun _ => SteamResp.transportFail⟩)
                  ["Dota Plus".toList]).success_count,
                "Failed: ".toList ++ natDigitsStr (handle_image_core
                  (fun _ => ⟨fun _ => SteamResp.ok true (some "₱100.00".toList) none,
                             fun _ => SteamResp.transportFail⟩)
                  ["Dota Plus".toList]).fail_count,
                "Total Value (parsed sum): ".toList ++ pesoLit
                  ++ formatCommaTwo (handle_image_core
                    (fun _ => ⟨fun _ => SteamResp.ok true (some "₱100.00".toList) none,
                               fun _ => SteamResp.transportFail⟩)
                    ["Dota Plus".toList]).total_value,
                []]) :=
  report_file_five_summary_lines "TS".toList
    (fun _ => ⟨fun _ => SteamResp.ok true (some "₱100.00".toList) none,
               fun _ => SteamResp.transportFail⟩)
    ["Dota Plus".toList] (by decide) (by decide)

unseal Rat.add in
/-- Counterexample for C7 as stated: on a concrete failing one-item run the
rendered file splits into the header, one row, the blank separator and
FIVE summary fragments before the final empty fragment — there is no way
to read it as the claimed FOUR summary lines. -/
theorem four_summary_lines_refuted :
    pySplitNL (renderFile "TS".toList ["Foo".toList]
        (handle_image_core
          (fun _ => ⟨fun _ => SteamResp.transportFail, fun _ => SteamResp.transportFail⟩)
          ["Foo".toList]))
      = ["Item Name\tPrice (PHP)".toList,
         "Foo".toList ++ '\t' :: errorMarker,
         [],
         "Generated: TS".toList,
         "Total Items OCR-detected: 1".toList,
         "Success: 0".toList,
         "Failed: 1".toList,
         "Total Value (parsed sum): ".toList ++ pesoLit ++ "0.00".toList,
         []]
    ∧ ¬ ∃ a b c d : PyStr,
        pySplitNL (renderFile "TS".toList ["Foo".toList]
            (handle_image_core
              (fun _ => ⟨fun _ => SteamResp.transportFail, fun _ => SteamResp.transportFail⟩)
              ["Foo".toList]))
          = ["Item Name\tPrice (PHP)".toList, "Foo".toList ++ '\t' :: errorMarker,
             [], a, b, c, d, []] := by
  constructor
  · decide
  · rintro ⟨a, b, c, d, h⟩
    have hlen : (pySplitNL (renderFile "TS".toList ["Foo".toList]
        (handle_image_core
          (fun _ => ⟨fun _ => SteamResp.transportFail, fun _ => SteamResp.transportFail⟩)
          ["Foo".toList]))).length = 9 := by decide
    rw [h] at hlen
    simp at hlen
